import Mathlib

/-!
Verification of the MS-DOS date/time packing library.

The development shallowly embeds the crate's core types and operations:
`Date` (packed 16-bit MS-DOS date), `Time` (packed 16-bit MS-DOS time),
the composed `DateTime` (pair of the two) and the legacy
`date_time.DateTime` (pair of raw 16-bit integers).  Calendar values from
the external `time` crate are embedded as `TimeDate` and `TimeTime`
records together with their fallible constructors.  Machine `u16` values
are embedded as `Nat` with explicit `< 65536` bounds in the theorems;
all bit-field arithmetic (`>>>`, `<<<`, `&&&`, `|||`) is on `Nat`, and
none of the packing operations can overflow 16 bits because every field
is range-checked before packing.
-/

namespace Dos

/-- Proleptic-Gregorian leap-year rule, as used by the external `time`
crate for calendar-date existence checks. -/
def isLeapYear (y : Int) : Bool :=
  y % 4 == 0 && (y % 100 != 0 || y % 400 == 0)

/-- Number of days of month `m` (1..=12) of year `y` in the proleptic
Gregorian calendar; `0` for an out-of-range month number. -/
def daysInMonth (y : Int) (m : Nat) : Nat :=
  match m with
  | 1 => 31
  | 2 => if isLeapYear y then 29 else 28
  | 3 => 31
  | 4 => 30
  | 5 => 31
  | 6 => 30
  | 7 => 31
  | 8 => 31
  | 9 => 30
  | 10 => 31
  | 11 => 30
  | 12 => 31
  | _ => 0

/-- Embedding of `time::Date`: a calendar date.  The month is embedded as
its number 1..=12 (the `time::Month` enum). -/
structure TimeDate where
  year : Int
  month : Nat
  day : Nat
deriving DecidableEq, Repr

/-- Embedding of `time::Date::from_calendar_date`: succeeds exactly when
`(year, month, day)` is a real proleptic-Gregorian calendar date within
the crate's supported year range `-9999..=9999`. -/
def TimeDate.from_calendar_date (y : Int) (m d : Nat) : Option TimeDate :=
  if -9999 ≤ y ∧ y ≤ 9999 ∧ 1 ≤ m ∧ m ≤ 12 ∧ 1 ≤ d ∧ d ≤ daysInMonth y m then
    some ⟨y, m, d⟩
  else none

/-- Embedding of `time::Time`: a wall-clock time of day. -/
structure TimeTime where
  hour : Nat
  minute : Nat
  second : Nat
deriving DecidableEq, Repr

/-- Embedding of `time::Time::from_hms`: succeeds exactly when the fields
are a real time of day. -/
def TimeTime.from_hms (h m s : Nat) : Option TimeTime :=
  if h ≤ 23 ∧ m ≤ 59 ∧ s ≤ 59 then some ⟨h, m, s⟩ else none

/-- Embedding of `u8::try_from` on a `u16` value: succeeds exactly when
the value fits in 8 bits. -/
def u8OfU16 (n : Nat) : Option Nat :=
  if n ≤ 255 then some n else none

/-- Embedding of `Month::try_from` on a `u8` value: succeeds exactly for
1..=12 (the month is represented by its number). -/
def monthOfU8 (n : Nat) : Option Nat :=
  if 1 ≤ n ∧ n ≤ 12 then some n else none

/-- Embedding of `error::DateRangeErrorKind` (`src/error/dos_date.rs`).
`DateRangeError` is a newtype around its kind, so errors are embedded by
their kind. -/
inductive DateRangeErrorKind
  | Negative
  | Overflow
deriving DecidableEq, Repr

/-- Embedding of `error::DateTimeRangeErrorKind`
(`src/error/dos_date_time.rs`). -/
inductive DateTimeRangeErrorKind
  | Negative
  | Overflow
deriving DecidableEq, Repr

/-- Embedding of `impl From<DateRangeError> for DateTimeRangeError`:
the kind is preserved. -/
def dateToDateTimeError : DateRangeErrorKind → DateTimeRangeErrorKind
  | .Negative => .Negative
  | .Overflow => .Overflow

/-- Embedding of `dos_date::Date`: a packed 16-bit MS-DOS date, wrapping
the raw integer. -/
structure Date where
  raw : Nat
deriving DecidableEq, Repr

/-- Embedding of `Date::to_raw`. -/
def Date.to_raw (d : Date) : Nat :=
  d.raw

/-- Embedding of `Date::new_unchecked`: wraps the raw value with no
validation. -/
def Date.new_unchecked (r : Nat) : Date :=
  ⟨r⟩

/-- Embedding of `Date::year`: `1980 + (self.to_raw() >> 9)`. -/
def Date.year (d : Date) : Nat :=
  1980 + (d.to_raw >>> 9)

/-- Embedding of `Date::month`: extracts bits 5..=8, converts to `u8`
(an `expect` in the source) and then to `Month` (another `expect`).
Both fallible conversions are modelled, so `none` marks the panic
branch. -/
def Date.monthOpt (d : Date) : Option Nat :=
  (u8OfU16 ((d.to_raw >>> 5) &&& 0x0F)).bind monthOfU8

/-- Embedding of `Date::day`: extracts bits 0..=4 and converts to `u8`
(an `expect` in the source); `none` marks the panic branch. -/
def Date.dayOpt (d : Date) : Option Nat :=
  u8OfU16 (d.to_raw &&& 0x1F)

/-- Embedding of `Date::from_date` (`src/dos_date.rs` lines 95-111):
rejects years at most 1979 as `Negative` and years at least 2108 as
`Overflow`, and otherwise packs `(year - 1980, month, day)` through the
unchecked constructor. -/
def Date.from_date (cd : TimeDate) : Except DateRangeErrorKind Date :=
  if cd.year ≤ 1979 then .error .Negative
  else if 2108 ≤ cd.year then .error .Overflow
  else
    let year := (cd.year - 1980).toNat
    let month := cd.month
    let day := cd.day
    .ok (Date.new_unchecked ((year <<< 9) ||| (month <<< 5) ||| day))

/-- Field decoding step of `Date::new` (`src/dos_date.rs` lines 51-61):
the year is `1980 + (raw >> 9)`, the month field is converted through
`u8` and `Month`, the day field through `u8`, and the triple is checked
by `time::Date::from_calendar_date`. -/
def Date.decode_fields (r : Nat) : Option TimeDate := do
  let month ← (u8OfU16 ((r >>> 5) &&& 0x0F)).bind monthOfU8
  TimeDate.from_calendar_date ((1980 + (r >>> 9) : Nat) : Int) month (r &&& 0x1F)

/-- Embedding of `Date::new`: decodes the fields, validates them as a
calendar date, and re-packs through `Date::from_date`. -/
def Date.new (r : Nat) : Option Date := do
  let date ← Date.decode_fields r
  (Date.from_date date).toOption

/-- Embedding of `Date::is_valid`: revalidates by round-tripping the raw
value through `Date::new`. -/
def Date.is_valid (d : Date) : Bool :=
  (Date.new d.to_raw).isSome

/-- Embedding of `impl From<Date> for time::Date`
(`src/dos_date/convert.rs` lines 26-31): reads the accessors and rebuilds
the calendar date; `none` marks the panic branches (`month()`, `day()`
and the final `expect`). -/
def Date.toDate (d : Date) : Option TimeDate := do
  let m ← d.monthOpt
  let dy ← d.dayOpt
  TimeDate.from_calendar_date (d.year : Int) m dy

/-- Embedding of `Date::MIN` (raw `0b0000_0000_0010_0001`, 1980-01-01). -/
def Date.MIN : Date :=
  Date.new_unchecked 0b0000000000100001

/-- Embedding of `Date::MAX` (raw `0b1111_1111_1001_1111`, 2107-12-31). -/
def Date.MAX : Date :=
  Date.new_unchecked 0b1111111110011111

/-- Embedding of `dos_time::Time`: a packed 16-bit MS-DOS time, wrapping
the raw integer. -/
structure Time where
  raw : Nat
deriving DecidableEq, Repr

/-- Embedding of `Time::to_raw`. -/
def Time.to_raw (t : Time) : Nat :=
  t.raw

/-- Embedding of `Time::new_unchecked`. -/
def Time.new_unchecked (r : Nat) : Time :=
  ⟨r⟩

/-- Embedding of `Time::hour`: bits 11..=15.  The `u8` conversion in the
source never fails for a 16-bit raw value, so the accessor is total. -/
def Time.hour (t : Time) : Nat :=
  t.to_raw >>> 11

/-- Embedding of `Time::minute`: bits 5..=10. -/
def Time.minute (t : Time) : Nat :=
  (t.to_raw >>> 5) &&& 0x3F

/-- Embedding of `Time::second`: twice the double-seconds field
(bits 0..=4). -/
def Time.second (t : Time) : Nat :=
  (t.to_raw &&& 0x1F) * 2

/-- Embedding of `Time::from_time` (`src/dos_time.rs` lines 117-128):
total; seconds are divided by 2 rounding toward zero and clamped to 29,
then the fields are packed through the unchecked constructor. -/
def Time.from_time (ct : TimeTime) : Time :=
  let second := min (ct.second / 2) 29
  Time.new_unchecked ((ct.hour <<< 11) ||| (ct.minute <<< 5) ||| second)

/-- Field decoding step of `Time::new` (`src/dos_time.rs` lines 57-68):
hour, minute and doubled double-seconds are extracted and checked by
`time::Time::from_hms`. -/
def Time.decode_fields (r : Nat) : Option TimeTime :=
  TimeTime.from_hms (r >>> 11) ((r >>> 5) &&& 0x3F) ((r &&& 0x1F) * 2)

/-- Embedding of `Time::new`: decodes the fields and re-packs them
through `Time::from_time`. -/
def Time.new (r : Nat) : Option Time := do
  let ct ← Time.decode_fields r
  some (Time.from_time ct)

/-- Modelled from the spec: the crate's source has no `is_valid` method
on the packed time (spec section 4.3 lists one mirroring the packed
date's); it revalidates by round-tripping through the validating
constructor. -/
def Time.is_valid (t : Time) : Bool :=
  (Time.new t.to_raw).isSome

/-- Embedding of `impl From<Time> for time::Time`
(`src/dos_time/convert.rs` lines 28-31): reads the accessors and
rebuilds the time of day; `none` marks the final `expect`. -/
def Time.toTime (t : Time) : Option TimeTime :=
  TimeTime.from_hms t.hour t.minute t.second

/-- Embedding of `Time::MIN` (raw `0`, 00:00:00). -/
def Time.MIN : Time :=
  Time.new_unchecked 0

/-- Embedding of `Time::MAX` (raw `0b1011_1111_0111_1101`, 23:59:58). -/
def Time.MAX : Time :=
  Time.new_unchecked 0b1011111101111101

/-- Embedding of the composed `dos_date_time::DateTime`: a pair of a
packed date and a packed time. -/
structure DateTime where
  date : Date
  time : Time
deriving DecidableEq, Repr

/-- Embedding of the composed `DateTime::new`: pure composition, always
succeeds. -/
def DateTime.new (d : Date) (t : Time) : DateTime :=
  ⟨d, t⟩

/-- Embedding of the composed `DateTime::from_date_time`
(`src/dos_date_time.rs` lines 102-106): converts the date through the
fallible `Date::from_date` (propagating the error through the `From`
conversion on error kinds) and the time through the infallible
`Time::from_time`. -/
def DateTime.from_date_time (cd : TimeDate) (ct : TimeTime) :
    Except DateTimeRangeErrorKind DateTime :=
  match Date.from_date cd with
  | .error e => .error (dateToDateTimeError e)
  | .ok d => .ok (DateTime.new d (Time.from_time ct))

namespace date_time

/-- Embedding of the legacy `date_time::DateTime`: both raw 16-bit
integers packed directly, with no intermediate packed-date and
packed-time types. -/
structure DateTime where
  date : Nat
  time : Nat
deriving DecidableEq, Repr

/-- Embedding of the legacy accessor `DateTime::date`. -/
def DateTime.date_raw (dt : DateTime) : Nat :=
  dt.date

/-- Embedding of the legacy accessor `DateTime::time`. -/
def DateTime.time_raw (dt : DateTime) : Nat :=
  dt.time

/-- Embedding of the legacy `DateTime::from_date_time`
(`src/date_time.rs` lines 170-196): the same year range check and the
same packing expressions as the composed design, inlined for both
halves. -/
def DateTime.from_date_time (cd : TimeDate) (ct : TimeTime) :
    Except DateTimeRangeErrorKind DateTime :=
  if cd.year ≤ 1979 then .error .Negative
  else if 2108 ≤ cd.year then .error .Overflow
  else
    let dateRaw := (((cd.year - 1980).toNat) <<< 9) ||| (cd.month <<< 5) ||| cd.day
    let second := min (ct.second / 2) 29
    let timeRaw := (ct.hour <<< 11) ||| (ct.minute <<< 5) ||| second
    .ok ⟨dateRaw, timeRaw⟩

/-- Embedding of the legacy `DateTime::new` (`src/date_time.rs` lines
75-102): decodes the date fields and the time fields exactly as
`Date::new` and `Time::new` do, then routes through the legacy
`from_date_time`. -/
def DateTime.new (d t : Nat) : Option DateTime := do
  let cd ← Date.decode_fields d
  let ct ← Time.decode_fields t
  (DateTime.from_date_time cd ct).toOption

end date_time

/-- Month field (bits 5..=8) of a packed date: the value the `month()`
accessor returns whenever its conversions succeed. -/
def Date.month_field (d : Date) : Nat :=
  (d.to_raw >>> 5) &&& 0x0F

/-- Day field (bits 0..=4) of a packed date: the value the `day()`
accessor returns. -/
def Date.day_field (d : Date) : Nat :=
  d.to_raw &&& 0x1F

/-- Validity of the three date bit-fields of a raw value, as checked by
`Date::new`: month number in 1..=12 and day in 1..=days of that month of
the decoded year. -/
def dateFieldsOk (r : Nat) : Prop :=
  1 ≤ (r >>> 5) &&& 15 ∧ (r >>> 5) &&& 15 ≤ 12 ∧
    1 ≤ r &&& 31 ∧ r &&& 31 ≤ daysInMonth ((1980 + (r >>> 9) : Nat) : Int) ((r >>> 5) &&& 15)

instance (r : Nat) : Decidable (dateFieldsOk r) := by
  unfold dateFieldsOk; infer_instance

/-- Validity of the three time bit-fields of a raw value, as checked by
`Time::new`: hour at most 23, minute at most 59, double-seconds at most
29. -/
def timeFieldsOk (r : Nat) : Prop :=
  r >>> 11 ≤ 23 ∧ (r >>> 5) &&& 63 ≤ 59 ∧ r &&& 31 ≤ 29

instance (r : Nat) : Decidable (timeFieldsOk r) := by
  unfold timeFieldsOk; infer_instance

/-- Embedding of the derived strict order on the composed `DateTime`
(the `Ord`/`PartialOrd` derive compares the `date` component first and
the `time` component second, each by its raw 16-bit value, which is how
the derived orders on `Date` and `Time` compare). -/
def DateTime.lt (x y : DateTime) : Prop :=
  x.date.to_raw < y.date.to_raw ∨ (x.date = y.date ∧ x.time.to_raw < y.time.to_raw)

/-! Helper lemmas about the bit-field arithmetic. -/

/-- Masking with 31 is reduction modulo 32. -/
lemma mask31 (r : Nat) : r &&& 31 = r % 32 := by
  have h := Nat.and_pow_two_sub_one_eq_mod r 5
  norm_num at h
  exact h

/-- Masking with 15 is reduction modulo 16. -/
lemma mask15 (r : Nat) : r &&& 15 = r % 16 := by
  have h := Nat.and_pow_two_sub_one_eq_mod r 4
  norm_num at h
  exact h

/-- Masking with 63 is reduction modulo 64. -/
lemma mask63 (r : Nat) : r &&& 63 = r % 64 := by
  have h := Nat.and_pow_two_sub_one_eq_mod r 6
  norm_num at h
  exact h

/-- Right shift is division by a power of two. -/
lemma shr (r i : Nat) : r >>> i = r / 2 ^ i := Nat.shiftRight_eq_div_pow r i

/-- Bitwise or of a shifted value with a value below the shift amount is
addition. -/
lemma shiftLeft_or_eq_add (a c i : Nat) (hc : c < 2 ^ i) :
    (a <<< i) ||| c = 2 ^ i * a + c := by
  apply Nat.eq_of_testBit_eq
  intro j
  rw [Nat.testBit_lor, Nat.testBit_shiftLeft, Nat.testBit_mul_pow_two_add a hc j]
  by_cases h : j < i
  · simp [h, Nat.not_le.mpr h]
  · have hcj : c < 2 ^ j :=
      lt_of_lt_of_le hc (Nat.pow_le_pow_right (by norm_num) (Nat.le_of_not_lt h))
    simp [h, Nat.le_of_not_lt h, Nat.testBit_lt_two_pow hcj]

/-- The date packing expression is plain arithmetic on in-range fields. -/
lemma date_pack (a b c : Nat) (hb : b < 16) (hc : c < 32) :
    (a <<< 9) ||| (b <<< 5) ||| c = 512 * a + 32 * b + c := by
  have hb32 : b <<< 5 = b * 32 := by rw [Nat.shiftLeft_eq]
  have h1 : (a <<< 9) ||| (b <<< 5) = 512 * a + 32 * b := by
    rw [hb32]
    have := shiftLeft_or_eq_add a (b * 32) 9 (by norm_num; omega)
    norm_num at this
    omega
  have h2 : 512 * a + 32 * b = (a * 16 + b) <<< 5 := by
    rw [Nat.shiftLeft_eq]
    ring
  rw [h1, h2]
  have := shiftLeft_or_eq_add (a * 16 + b) c 5 (by norm_num; omega)
  norm_num at this
  omega

/-- The time packing expression is plain arithmetic on in-range fields. -/
lemma time_pack (a b c : Nat) (hb : b < 64) (hc : c < 32) :
    (a <<< 11) ||| (b <<< 5) ||| c = 2048 * a + 32 * b + c := by
  have hb32 : b <<< 5 = b * 32 := by rw [Nat.shiftLeft_eq]
  have h1 : (a <<< 11) ||| (b <<< 5) = 2048 * a + 32 * b := by
    rw [hb32]
    have := shiftLeft_or_eq_add a (b * 32) 11 (by norm_num; omega)
    norm_num at this
    omega
  have h2 : 2048 * a + 32 * b = (a * 64 + b) <<< 5 := by
    rw [Nat.shiftLeft_eq]
    ring
  rw [h1, h2]
  have := shiftLeft_or_eq_add (a * 64 + b) c 5 (by norm_num; omega)
  norm_num at this
  omega

/-- Every natural number decomposes uniquely into the three date
bit-fields. -/
lemma date_decomp (r : Nat) :
    r = 512 * (r >>> 9) + 32 * ((r >>> 5) &&& 15) + (r &&& 31) := by
  rw [mask31, mask15, shr, shr]
  norm_num
  omega

/-- Every natural number decomposes uniquely into the three time
bit-fields. -/
lemma time_decomp (r : Nat) :
    r = 2048 * (r >>> 11) + 32 * ((r >>> 5) &&& 63) + (r &&& 31) := by
  rw [mask31, mask63, shr, shr]
  norm_num
  omega

lemma mask15_lt (r : Nat) : r &&& 15 < 16 := by rw [mask15]; omega

lemma mask31_lt (r : Nat) : r &&& 31 < 32 := by rw [mask31]; omega

lemma mask63_lt (r : Nat) : r &&& 63 < 64 := by rw [mask63]; omega

lemma shr9_lt (r : Nat) (h : r < 65536) : r >>> 9 < 128 := by
  rw [shr]; norm_num; omega

lemma shr11_lt (r : Nat) (h : r < 65536) : r >>> 11 < 32 := by
  rw [shr]; norm_num; omega

/-! Characterizations of the decoders and constructors. -/

/-- Unfolding of `Date.decode_fields` for a 16-bit raw value. -/
lemma date_decode_fields_spec (r : Nat) (hr : r < 65536) :
    Date.decode_fields r =
      if dateFieldsOk r then
        some ⟨((1980 + (r >>> 9) : Nat) : Int), (r >>> 5) &&& 15, r &&& 31⟩
      else none := by
  have h1 : (r >>> 5) &&& 15 < 16 := mask15_lt _
  have h3 : r >>> 9 < 128 := shr9_lt r hr
  have hu8 : u8OfU16 ((r >>> 5) &&& 0x0F) = some ((r >>> 5) &&& 15) := by
    unfold u8OfU16
    rw [if_pos (by omega)]
  by_cases hm : 1 ≤ (r >>> 5) &&& 15 ∧ (r >>> 5) &&& 15 ≤ 12
  · have hX : (u8OfU16 ((r >>> 5) &&& 0x0F)).bind monthOfU8 = some ((r >>> 5) &&& 15) := by
      rw [hu8]
      show monthOfU8 ((r >>> 5) &&& 15) = _
      unfold monthOfU8
      rw [if_pos hm]
    have hred : Date.decode_fields r =
        TimeDate.from_calendar_date ((1980 + (r >>> 9) : Nat) : Int)
          ((r >>> 5) &&& 15) (r &&& 31) := by
      unfold Date.decode_fields
      rw [hX]
      rfl
    rw [hred]
    unfold TimeDate.from_calendar_date
    by_cases hday : 1 ≤ r &&& 31 ∧ r &&& 31 ≤
        daysInMonth ((1980 + (r >>> 9) : Nat) : Int) ((r >>> 5) &&& 15)
    · rw [if_pos ⟨by push_cast; omega, by push_cast; omega, hm.1, hm.2, hday.1, hday.2⟩,
        if_pos ⟨hm.1, hm.2, hday.1, hday.2⟩]
    · rw [if_neg (fun hc => hday ⟨hc.2.2.2.2.1, hc.2.2.2.2.2⟩),
        if_neg (fun hd => hday ⟨hd.2.2.1, hd.2.2.2⟩)]
  · have hX : (u8OfU16 ((r >>> 5) &&& 0x0F)).bind monthOfU8 = none := by
      rw [hu8]
      show monthOfU8 ((r >>> 5) &&& 15) = _
      unfold monthOfU8
      rw [if_neg hm]
    have hred : Date.decode_fields r = none := by
      unfold Date.decode_fields
      rw [hX]
      rfl
    rw [hred, if_neg (fun hd => hm ⟨hd.1, hd.2.1⟩)]

/-- Re-packing the decoded fields through `Date.from_date` restores the
original raw value. -/
lemma Date.from_date_decoded (r : Nat) (hr : r < 65536) :
    Date.from_date ⟨((1980 + (r >>> 9) : Nat) : Int), (r >>> 5) &&& 15, r &&& 31⟩ =
      .ok (Date.new_unchecked r) := by
  have h1 : (r >>> 5) &&& 15 < 16 := mask15_lt _
  have h2 : r &&& 31 < 32 := mask31_lt _
  have h3 : r >>> 9 < 128 := shr9_lt r hr
  unfold Date.from_date
  rw [if_neg (by push_cast; omega), if_neg (by push_cast; omega)]
  show Except.ok (Date.new_unchecked
      ((((((1980 + (r >>> 9) : Nat) : Int)) - 1980).toNat <<< 9) |||
        (((r >>> 5) &&& 15) <<< 5) ||| (r &&& 31))) = _
  have hy : ((((1980 + (r >>> 9) : Nat) : Int)) - 1980).toNat = r >>> 9 := by
    omega
  rw [hy, date_pack _ _ _ h1 h2]
  have hd := date_decomp r
  rw [show 512 * (r >>> 9) + 32 * ((r >>> 5) &&& 15) + (r &&& 31) = r from by omega]

/-- Characterization of `Date.new`: on a 16-bit raw value it validates
the bit-fields and, if they are valid, returns the raw value unchanged. -/
lemma date_new_spec (r : Nat) (hr : r < 65536) :
    Date.new r = if dateFieldsOk r then some (Date.new_unchecked r) else none := by
  by_cases h : dateFieldsOk r
  · have hred : Date.new r = (Date.from_date
        ⟨((1980 + (r >>> 9) : Nat) : Int), (r >>> 5) &&& 15, r &&& 31⟩).toOption := by
      unfold Date.new
      rw [date_decode_fields_spec r hr, if_pos h]
      rfl
    rw [hred, Date.from_date_decoded r hr, if_pos h]
    rfl
  · have hred : Date.new r = none := by
      unfold Date.new
      rw [date_decode_fields_spec r hr, if_neg h]
      rfl
    rw [hred, if_neg h]

/-- Unfolding of `Time.decode_fields`. -/
lemma time_decode_fields_spec (r : Nat) :
    Time.decode_fields r =
      if timeFieldsOk r then
        some ⟨r >>> 11, (r >>> 5) &&& 63, (r &&& 31) * 2⟩
      else none := by
  unfold Time.decode_fields TimeTime.from_hms timeFieldsOk
  by_cases h : r >>> 11 ≤ 23 ∧ (r >>> 5) &&& 63 ≤ 59 ∧ r &&& 31 ≤ 29
  · rw [if_pos ⟨h.1, h.2.1, by omega⟩, if_pos h]
  · rw [if_neg (fun hc => h ⟨hc.1, hc.2.1, by omega⟩), if_neg h]

/-- Re-packing the decoded fields through `Time.from_time` restores the
original raw value. -/
lemma Time.from_time_decoded (r : Nat) (h : timeFieldsOk r) :
    Time.from_time ⟨r >>> 11, (r >>> 5) &&& 63, (r &&& 31) * 2⟩ =
      Time.new_unchecked r := by
  have h2 : (r >>> 5) &&& 63 < 64 := mask63_lt _
  have h3 : r &&& 31 < 32 := mask31_lt _
  unfold Time.from_time
  show Time.new_unchecked (((r >>> 11) <<< 11) ||| (((r >>> 5) &&& 63) <<< 5) |||
      min ((r &&& 31) * 2 / 2) 29) = _
  rw [show (r &&& 31) * 2 / 2 = r &&& 31 from by omega,
    Nat.min_eq_left h.2.2, time_pack _ _ _ h2 h3]
  have hd := time_decomp r
  rw [show 2048 * (r >>> 11) + 32 * ((r >>> 5) &&& 63) + (r &&& 31) = r from by omega]

/-- Characterization of `Time.new`: it validates the bit-fields and, if
they are valid, returns the raw value unchanged. -/
lemma time_new_spec (r : Nat) :
    Time.new r = if timeFieldsOk r then some (Time.new_unchecked r) else none := by
  by_cases h : timeFieldsOk r
  · have hred : Time.new r =
        some (Time.from_time ⟨r >>> 11, (r >>> 5) &&& 63, (r &&& 31) * 2⟩) := by
      unfold Time.new
      rw [time_decode_fields_spec r, if_pos h]
      rfl
    rw [hred, Time.from_time_decoded r h, if_pos h]
  · have hred : Time.new r = none := by
      unfold Time.new
      rw [time_decode_fields_spec r, if_neg h]
      rfl
    rw [hred, if_neg h]

/-- The `day()` accessor's `u8` conversion always succeeds: the day field
is at most 31. -/
lemma Date.dayOpt_decoded (r : Nat) :
    (Date.new_unchecked r).dayOpt = some (r &&& 31) := by
  have h2 : r &&& 31 < 32 := mask31_lt _
  unfold Date.dayOpt
  show u8OfU16 (r &&& 31) = _
  unfold u8OfU16
  rw [if_pos (by omega)]

/-- The `month()` accessor succeeds exactly when the month field is in
1..=12. -/
lemma Date.monthOpt_decoded (r : Nat)
    (hm : 1 ≤ (r >>> 5) &&& 15 ∧ (r >>> 5) &&& 15 ≤ 12) :
    (Date.new_unchecked r).monthOpt = some ((r >>> 5) &&& 15) := by
  have h1 : (r >>> 5) &&& 15 < 16 := mask15_lt _
  unfold Date.monthOpt
  show (u8OfU16 ((r >>> 5) &&& 15)).bind monthOfU8 = _
  rw [show u8OfU16 ((r >>> 5) &&& 15) = some ((r >>> 5) &&& 15) from by
    unfold u8OfU16; rw [if_pos (by omega)]]
  show monthOfU8 ((r >>> 5) &&& 15) = _
  unfold monthOfU8
  rw [if_pos hm]

/-- Converting a field-valid packed date to a calendar date recovers the
decoded fields. -/
lemma Date.toDate_decoded (r : Nat) (hr : r < 65536) (h : dateFieldsOk r) :
    (Date.new_unchecked r).toDate =
      some ⟨((1980 + (r >>> 9) : Nat) : Int), (r >>> 5) &&& 15, r &&& 31⟩ := by
  have h3 : r >>> 9 < 128 := shr9_lt r hr
  have step1 : (Date.new_unchecked r).toDate =
      ((Date.new_unchecked r).dayOpt).bind
        (fun dy => TimeDate.from_calendar_date ((1980 + (r >>> 9) : Nat) : Int)
          ((r >>> 5) &&& 15) dy) := by
    unfold Date.toDate
    rw [Date.monthOpt_decoded r ⟨h.1, h.2.1⟩]
    rfl
  have step2 : (Date.new_unchecked r).toDate =
      TimeDate.from_calendar_date ((1980 + (r >>> 9) : Nat) : Int)
        ((r >>> 5) &&& 15) (r &&& 31) := by
    rw [step1, Date.dayOpt_decoded r]
    rfl
  rw [step2]
  unfold TimeDate.from_calendar_date
  rw [if_pos ⟨by push_cast; omega, by push_cast; omega, h.1, h.2.1, h.2.2.1, h.2.2.2⟩]

/-- Converting a field-valid packed time to a calendar time recovers the
decoded fields. -/
lemma Time.toTime_decoded (r : Nat) (h : timeFieldsOk r) :
    (Time.new_unchecked r).toTime = some ⟨r >>> 11, (r >>> 5) &&& 63, (r &&& 31) * 2⟩ := by
  show TimeTime.from_hms (r >>> 11) ((r >>> 5) &&& 63) ((r &&& 31) * 2) = _
  unfold TimeTime.from_hms
  rw [if_pos ⟨h.1, h.2.1, by have := h.2.2; omega⟩]

/-- The legacy conversion agrees with the composed conversion: same error
kind on failure, the raw fields of the composed result on success. -/
lemma legacy_from_date_time_eq (cd : TimeDate) (ct : TimeTime) :
    date_time.DateTime.from_date_time cd ct =
      (DateTime.from_date_time cd ct).map
        (fun dt => ⟨dt.date.to_raw, dt.time.to_raw⟩) := by
  unfold date_time.DateTime.from_date_time DateTime.from_date_time Date.from_date
  by_cases hy1 : cd.year ≤ 1979
  · rw [if_pos hy1, if_pos hy1]
    rfl
  · rw [if_neg hy1, if_neg hy1]
    by_cases hy2 : 2108 ≤ cd.year
    · rw [if_pos hy2, if_pos hy2]
      rfl
    · rw [if_neg hy2, if_neg hy2]
      rfl

/-- Elimination form of `date_new_spec`. -/
lemma date_new_some_elim (r : Nat) (hr : r < 65536) (d : Date)
    (h : Date.new r = some d) : d = Date.new_unchecked r ∧ dateFieldsOk r := by
  rw [date_new_spec r hr] at h
  split_ifs at h with hv
  injection h with h2
  exact ⟨h2.symm, hv⟩

/-- Elimination form of `time_new_spec`. -/
lemma time_new_some_elim (r : Nat) (t : Time)
    (h : Time.new r = some t) : t = Time.new_unchecked r ∧ timeFieldsOk r := by
  rw [time_new_spec r] at h
  split_ifs at h with hv
  injection h with h2
  exact ⟨h2.symm, hv⟩

/-- Characterization of the legacy `DateTime::new`: it succeeds exactly
when both halves have valid bit-fields and then stores both raw values
unchanged. -/
lemma legacy_new_spec (d t : Nat) (hd : d < 65536) (ht : t < 65536) :
    date_time.DateTime.new d t =
      if dateFieldsOk d ∧ timeFieldsOk t then some ⟨d, t⟩ else none := by
  by_cases hD : dateFieldsOk d
  · have hdec : Date.decode_fields d =
        some ⟨((1980 + (d >>> 9) : Nat) : Int), (d >>> 5) &&& 15, d &&& 31⟩ := by
      rw [date_decode_fields_spec d hd, if_pos hD]
    have hred : date_time.DateTime.new d t =
        (Time.decode_fields t).bind (fun ct =>
          (date_time.DateTime.from_date_time
            ⟨((1980 + (d >>> 9) : Nat) : Int), (d >>> 5) &&& 15, d &&& 31⟩
            ct).toOption) := by
      unfold date_time.DateTime.new
      rw [hdec]
      rfl
    by_cases hT : timeFieldsOk t
    · have htdec : Time.decode_fields t =
          some ⟨t >>> 11, (t >>> 5) &&& 63, (t &&& 31) * 2⟩ := by
        rw [time_decode_fields_spec t, if_pos hT]
      have hfdt : date_time.DateTime.from_date_time
          ⟨((1980 + (d >>> 9) : Nat) : Int), (d >>> 5) &&& 15, d &&& 31⟩
          ⟨t >>> 11, (t >>> 5) &&& 63, (t &&& 31) * 2⟩ = .ok ⟨d, t⟩ := by
        rw [legacy_from_date_time_eq]
        have hcomp : DateTime.from_date_time
            ⟨((1980 + (d >>> 9) : Nat) : Int), (d >>> 5) &&& 15, d &&& 31⟩
            ⟨t >>> 11, (t >>> 5) &&& 63, (t &&& 31) * 2⟩ =
            .ok (DateTime.new (Date.new_unchecked d) (Time.new_unchecked t)) := by
          unfold DateTime.from_date_time
          rw [Date.from_date_decoded d hd, Time.from_time_decoded t hT]
        rw [hcomp]
        rfl
      rw [hred, htdec, if_pos ⟨hD, hT⟩]
      show (date_time.DateTime.from_date_time _ _).toOption = _
      rw [hfdt]
      rfl
    · have htdec : Time.decode_fields t = none := by
        rw [time_decode_fields_spec t, if_neg hT]
      rw [hred, htdec, if_neg (fun hc => hT hc.2)]
      rfl
  · have hdec : Date.decode_fields d = none := by
      rw [date_decode_fields_spec d hd, if_neg hD]
    have hred : date_time.DateTime.new d t = none := by
      unfold date_time.DateTime.new
      rw [hdec]
      rfl
    rw [hred, if_neg (fun hc => hD hc.1)]

/-! The claims. -/

/-- C7: the validating constructors perform no renormalization: whenever
`Date::new` or `Time::new` accepts a 16-bit raw value, the returned
value's `to_raw` is exactly the input, even though the implementation
routes through unpack-then-repack. -/
theorem validating_new_no_renormalization (r : Nat) (hr : r < 65536) :
    (∀ d : Date, Date.new r = some d → d.to_raw = r) ∧
    (∀ t : Time, Time.new r = some t → t.to_raw = r) := by
  constructor
  · intro d hd
    rw [date_new_spec r hr] at hd
    split_ifs at hd with h
    injection hd with h2
    rw [← h2]
    rfl
  · intro t ht
    rw [time_new_spec r] at ht
    split_ifs at ht with h
    injection ht with h2
    rw [← h2]
    rfl

/-- Witness for C7 at the raw value of `Date::MIN` (33). -/
theorem validating_new_no_renormalization_witness :
    (∀ d : Date, Date.new 33 = some d → d.to_raw = 33) ∧
    (∀ t : Time, Time.new 33 = some t → t.to_raw = 33) :=
  validating_new_no_renormalization 33 (by norm_num)

/-- C2: `Date::from_date` boundary behaviour: 1980-01-01 maps to `MIN`,
2107-12-31 maps to `MAX`, 1979-12-31 fails with `Negative`, 2108-01-01
fails with `Overflow`; in general it fails with `Negative` exactly for
years at most 1979, with `Overflow` exactly for years at least 2108, and
succeeds exactly for years 1980..=2107. -/
theorem from_date_epoch_boundaries :
    Date.from_date ⟨1980, 1, 1⟩ = .ok Date.MIN ∧
    Date.from_date ⟨1979, 12, 31⟩ = .error .Negative ∧
    Date.from_date ⟨2107, 12, 31⟩ = .ok Date.MAX ∧
    Date.from_date ⟨2108, 1, 1⟩ = .error .Overflow ∧
    ∀ cd : TimeDate,
      (Date.from_date cd = .error .Negative ↔ cd.year ≤ 1979) ∧
      (Date.from_date cd = .error .Overflow ↔ 2108 ≤ cd.year) ∧
      ((∃ d, Date.from_date cd = .ok d) ↔ 1980 ≤ cd.year ∧ cd.year ≤ 2107) := by
  refine ⟨by rfl, by rfl, by rfl, by rfl, ?_⟩
  intro cd
  unfold Date.from_date
  split_ifs with h1 h2
  · refine ⟨⟨fun _ => h1, fun _ => rfl⟩, ⟨fun h => ?_, fun h => absurd h1 (by omega)⟩,
      ⟨fun hd => ?_, fun h => absurd h1 (by omega)⟩⟩
    · exact nomatch h
    · obtain ⟨d, hd⟩ := hd
      exact nomatch hd
  · refine ⟨⟨fun h => ?_, fun h => absurd h2 (by omega)⟩, ⟨fun _ => h2, fun _ => rfl⟩,
      ⟨fun hd => ?_, fun h => absurd h2 (by omega)⟩⟩
    · exact nomatch h
    · obtain ⟨d, hd⟩ := hd
      exact nomatch hd
  · refine ⟨⟨fun h => ?_, fun h => absurd h h1⟩, ⟨fun h => ?_, fun h => absurd h h2⟩,
      ⟨fun _ => ⟨by omega, by omega⟩, fun _ => ⟨_, rfl⟩⟩⟩
    · exact nomatch h
    · exact nomatch h

/-- C10: inside `Date::new` the year field can never cause rejection:
the decoded year `1980 + (raw >> 9)` of a 16-bit raw value always lies
in 1980..=2107, the internal `Date::from_date` call never fails on the
decoded fields (it returns exactly the original raw value), and
`Date::new` returns `none` exactly when the field decoding step fails
(invalid month field or a nonexistent calendar date). -/
theorem year_field_never_rejects (r : Nat) (hr : r < 65536) :
    (1980 ≤ (Date.new_unchecked r).year ∧ (Date.new_unchecked r).year ≤ 2107) ∧
    (∀ cd, Date.decode_fields r = some cd →
      Date.from_date cd = .ok (Date.new_unchecked r)) ∧
    (Date.new r = none ↔ Date.decode_fields r = none) := by
  have h3 : r >>> 9 < 128 := shr9_lt r hr
  refine ⟨⟨?_, ?_⟩, ?_, ?_⟩
  · show 1980 ≤ 1980 + (r >>> 9)
    omega
  · show 1980 + (r >>> 9) ≤ 2107
    omega
  · intro cd hcd
    rw [date_decode_fields_spec r hr] at hcd
    split_ifs at hcd with h
    injection hcd with h2
    rw [← h2]
    exact Date.from_date_decoded r hr
  · rw [date_new_spec r hr, date_decode_fields_spec r hr]
    split_ifs with h
    · refine ⟨fun hc => ?_, fun hc => ?_⟩
      · exact nomatch hc
      · exact nomatch hc
    · exact ⟨fun _ => rfl, fun _ => rfl⟩

/-- Witness for C10 at raw value 0 (month and day fields 0: decoding
fails, but the year bound still holds). -/
theorem year_field_never_rejects_witness :
    (1980 ≤ (Date.new_unchecked 0).year ∧ (Date.new_unchecked 0).year ≤ 2107) ∧
    (∀ cd, Date.decode_fields 0 = some cd →
      Date.from_date cd = .ok (Date.new_unchecked 0)) ∧
    (Date.new 0 = none ↔ Date.decode_fields 0 = none) :=
  year_field_never_rejects 0 (by norm_num)

/-- C4: every structurally invalid bit pattern is rejected: a zero day
field, a day field past the end of the decoded month, a month field 0 or
13..=15 make `Date::new` fail and `is_valid` false on the unchecked
value; a double-seconds field 30..=31, a minute field 60..=63 or an hour
field 24..=31 make `Time::new` fail and the (spec-modelled) time
`is_valid` false on the unchecked value. -/
theorem invalid_bit_patterns_rejected (r : Nat) (hr : r < 65536) :
    ((r &&& 31 = 0 ∨
        daysInMonth ((1980 + (r >>> 9) : Nat) : Int) ((r >>> 5) &&& 15) < r &&& 31 ∨
        (r >>> 5) &&& 15 = 0 ∨ 13 ≤ (r >>> 5) &&& 15) →
      Date.new r = none ∧ (Date.new_unchecked r).is_valid = false) ∧
    ((30 ≤ r &&& 31 ∨ 60 ≤ (r >>> 5) &&& 63 ∨ 24 ≤ r >>> 11) →
      Time.new r = none ∧ (Time.new_unchecked r).is_valid = false) := by
  constructor
  · intro h
    have hnot : ¬dateFieldsOk r := by
      unfold dateFieldsOk
      rcases h with h | h | h | h <;> omega
    have hnone : Date.new r = none := by
      rw [date_new_spec r hr, if_neg hnot]
    refine ⟨hnone, ?_⟩
    show (Date.new r).isSome = false
    rw [hnone]
    rfl
  · intro h
    have hnot : ¬timeFieldsOk r := by
      unfold timeFieldsOk
      rcases h with h | h | h <;> omega
    have hnone : Time.new r = none := by
      rw [time_new_spec r, if_neg hnot]
    refine ⟨hnone, ?_⟩
    show (Time.new r).isSome = false
    rw [hnone]
    rfl

/-- Witness for C4 at raw value 32 (day field 0, month field 1; and as a
time: double-seconds 0 but minute field fine — instead the date half
fires; the time half is witnessed by the double-seconds field 30). -/
theorem invalid_bit_patterns_rejected_witness :
    (Date.new 32 = none ∧ (Date.new_unchecked 32).is_valid = false) ∧
    (Time.new 30 = none ∧ (Time.new_unchecked 30).is_valid = false) :=
  ⟨(invalid_bit_patterns_rejected 32 (by norm_num)).1 (by decide),
    (invalid_bit_patterns_rejected 30 (by norm_num)).2 (by decide)⟩

/-- C3: `Time::from_time` is total (its type is a plain function, never
failing) and on every real time of day it packs the hour and minute
fields unchanged and stores `min (second / 2) 29` in the double-seconds
field; the calendar times 23:59:58 and 23:59:59 both map to `Time::MAX`
and 10:38:30 yields double-seconds 15. -/
theorem from_time_truncates_and_clamps :
    (∀ h m s : Nat, h ≤ 23 → m ≤ 59 → s ≤ 59 →
      (Time.from_time ⟨h, m, s⟩).hour = h ∧
      (Time.from_time ⟨h, m, s⟩).minute = m ∧
      (Time.from_time ⟨h, m, s⟩).to_raw &&& 0x1F = min (s / 2) 29) ∧
    Time.from_time ⟨23, 59, 58⟩ = Time.MAX ∧
    Time.from_time ⟨23, 59, 59⟩ = Time.MAX ∧
    (Time.from_time ⟨10, 38, 30⟩).to_raw &&& 0x1F = 15 := by
  refine ⟨?_, by rfl, by rfl, by rfl⟩
  intro h m s hh hm hs
  have hds : min (s / 2) 29 ≤ 29 := Nat.min_le_right _ _
  have hpack : (Time.from_time ⟨h, m, s⟩).to_raw =
      2048 * h + 32 * m + min (s / 2) 29 := by
    show (h <<< 11) ||| (m <<< 5) ||| min (s / 2) 29 = _
    exact time_pack _ _ _ (by omega) (by omega)
  refine ⟨?_, ?_, ?_⟩
  · show (Time.from_time ⟨h, m, s⟩).to_raw >>> 11 = h
    rw [hpack, shr]
    norm_num
    omega
  · show ((Time.from_time ⟨h, m, s⟩).to_raw >>> 5) &&& 0x3F = m
    rw [hpack, mask63, shr]
    norm_num
    omega
  · rw [hpack, mask31]
    omega

/-- Witness for C3 at 10:38:30. -/
theorem from_time_truncates_and_clamps_witness :
    (Time.from_time ⟨10, 38, 30⟩).hour = 10 ∧
    (Time.from_time ⟨10, 38, 30⟩).minute = 38 ∧
    (Time.from_time ⟨10, 38, 30⟩).to_raw &&& 0x1F = min (30 / 2) 29 :=
  from_time_truncates_and_clamps.1 10 38 30 (by norm_num) (by norm_num) (by norm_num)

/-- C9 counterexample: the claim asserts that `month()` never panics
even for values built by `new_unchecked` from a raw value with month
field 0 or 13..=15; but for raw value 1 (month field 0, day field 1) the
`Month` conversion inside `month()` fails, so the panic branch is
reached. -/
theorem month_accessor_panics_on_unchecked_zero_month :
    (Date.new_unchecked 1).monthOpt = none := by
  rfl

/-- C9 (amended): `day()` never panics for any 16-bit raw value from
either constructor; `month()` never panics for a value produced by
`Date::new`; for a value produced by `new_unchecked` the `month()`
conversions succeed exactly when the month field is in 1..=12. -/
theorem accessors_never_panic_amended (r : Nat) (hr : r < 65536) :
    (Date.new_unchecked r).dayOpt = some (r &&& 31) ∧
    ((Date.new_unchecked r).monthOpt.isSome ↔
      (1 ≤ (r >>> 5) &&& 15 ∧ (r >>> 5) &&& 15 ≤ 12)) ∧
    (∀ d, Date.new r = some d →
      d.monthOpt = some ((r >>> 5) &&& 15) ∧ d.dayOpt = some (r &&& 31)) := by
  have h1 : (r >>> 5) &&& 15 < 16 := mask15_lt _
  refine ⟨Date.dayOpt_decoded r, ?_, ?_⟩
  · constructor
    · intro hsome
      by_contra hm
      have hnone : (Date.new_unchecked r).monthOpt = none := by
        unfold Date.monthOpt
        show (u8OfU16 ((r >>> 5) &&& 15)).bind monthOfU8 = _
        rw [show u8OfU16 ((r >>> 5) &&& 15) = some ((r >>> 5) &&& 15) from by
          unfold u8OfU16; rw [if_pos (by omega)]]
        show monthOfU8 ((r >>> 5) &&& 15) = _
        unfold monthOfU8
        rw [if_neg hm]
      rw [hnone] at hsome
      cases hsome
    · intro hm
      rw [Date.monthOpt_decoded r hm]
      rfl
  · intro d hd
    rw [date_new_spec r hr] at hd
    split_ifs at hd with h
    injection hd with h2
    rw [← h2]
    exact ⟨Date.monthOpt_decoded r ⟨h.1, h.2.1⟩, Date.dayOpt_decoded r⟩

/-- Witness for the amended C9 at raw value 33 (`Date::MIN`). -/
theorem accessors_never_panic_amended_witness :
    (Date.new_unchecked 33).dayOpt = some (33 &&& 31) ∧
    ((Date.new_unchecked 33).monthOpt.isSome ↔
      (1 ≤ (33 >>> 5) &&& 15 ∧ (33 >>> 5) &&& 15 ≤ 12)) ∧
    (∀ d, Date.new 33 = some d →
      d.monthOpt = some ((33 >>> 5) &&& 15) ∧ d.dayOpt = some (33 &&& 31)) :=
  accessors_never_panic_amended 33 (by norm_num)

/-- C8: the composed `DateTime::from_date_time` propagates the date
conversion's error kind unchanged (`Negative` for `Negative`, `Overflow`
for `Overflow`), independently of the time argument (whose conversion is
infallible), succeeds exactly when the date conversion succeeds, and on
success returns the converted pair rather than any default value. -/
theorem composed_error_propagation (cd : TimeDate) (ct : TimeTime) :
    (DateTime.from_date_time cd ct = .error .Negative ↔
      Date.from_date cd = .error .Negative) ∧
    (DateTime.from_date_time cd ct = .error .Overflow ↔
      Date.from_date cd = .error .Overflow) ∧
    ((∃ dt, DateTime.from_date_time cd ct = .ok dt) ↔
      (∃ d, Date.from_date cd = .ok d)) ∧
    (∀ d, Date.from_date cd = .ok d →
      DateTime.from_date_time cd ct = .ok (DateTime.new d (Time.from_time ct))) := by
  unfold DateTime.from_date_time
  cases hfd : Date.from_date cd with
  | error e =>
    cases e with
    | Negative =>
      refine ⟨⟨fun _ => rfl, fun _ => rfl⟩, ⟨fun h => ?_, fun h => ?_⟩,
        ⟨fun hd => ?_, fun hd => ?_⟩, fun d hd => ?_⟩
      · exact nomatch h
      · exact nomatch h
      · obtain ⟨dt, hdt⟩ := hd
        exact nomatch hdt
      · obtain ⟨d, hd⟩ := hd
        exact nomatch hd
      · exact nomatch hd
    | Overflow =>
      refine ⟨⟨fun h => ?_, fun h => ?_⟩, ⟨fun _ => rfl, fun _ => rfl⟩,
        ⟨fun hd => ?_, fun hd => ?_⟩, fun d hd => ?_⟩
      · exact nomatch h
      · exact nomatch h
      · obtain ⟨dt, hdt⟩ := hd
        exact nomatch hdt
      · obtain ⟨d, hd⟩ := hd
        exact nomatch hd
      · exact nomatch hd
  | ok d =>
    refine ⟨⟨fun h => ?_, fun h => ?_⟩, ⟨fun h => ?_, fun h => ?_⟩,
      ⟨fun _ => ⟨d, rfl⟩, fun _ => ⟨DateTime.new d (Time.from_time ct), rfl⟩⟩,
      fun d2 hd2 => ?_⟩
    · exact nomatch h
    · exact nomatch h
    · exact nomatch h
    · exact nomatch h
    · injection hd2 with h2
      rw [h2]

/-- Witness for C8 at the calendar pair (1980-01-01, 00:00:00). -/
theorem composed_error_propagation_witness :
    DateTime.from_date_time ⟨1980, 1, 1⟩ ⟨0, 0, 0⟩ =
      .ok (DateTime.new Date.MIN (Time.from_time ⟨0, 0, 0⟩)) :=
  (composed_error_propagation ⟨1980, 1, 1⟩ ⟨0, 0, 0⟩).2.2.2 Date.MIN (by rfl)

/-- C1: round-trip: whenever `Date::new` accepts a 16-bit raw value,
converting the result to a calendar date and back through
`Date::from_date` yields a value with the same raw value; symmetrically
for `Time::new` with `Time::from_time`, and for the composed `DateTime`
built from a valid raw pair via `DateTime::from_date_time`. -/
theorem valid_raw_roundtrip (r : Nat) (hr : r < 65536) :
    (∀ d : Date, Date.new r = some d →
      ((d.toDate).bind fun cd => (Date.from_date cd).toOption).map Date.to_raw =
        some r) ∧
    (∀ t : Time, Time.new r = some t →
      (t.toTime).map (fun ct => (Time.from_time ct).to_raw) = some r) ∧
    (∀ rt : Nat, rt < 65536 → ∀ d : Date, ∀ t : Time,
      Date.new r = some d → Time.new rt = some t →
      ∃ cd ct, d.toDate = some cd ∧ t.toTime = some ct ∧
        (DateTime.from_date_time cd ct).toOption.map
          (fun dt => (dt.date.to_raw, dt.time.to_raw)) = some (r, rt)) := by
  have hdate : ∀ d : Date, Date.new r = some d → d = Date.new_unchecked r ∧ dateFieldsOk r := by
    intro d hd
    rw [date_new_spec r hr] at hd
    split_ifs at hd with h
    injection hd with h2
    exact ⟨h2.symm, h⟩
  have htime : ∀ (rt : Nat) (t : Time), Time.new rt = some t →
      t = Time.new_unchecked rt ∧ timeFieldsOk rt := by
    intro rt t ht
    rw [time_new_spec rt] at ht
    split_ifs at ht with h
    injection ht with h2
    exact ⟨h2.symm, h⟩
  refine ⟨?_, ?_, ?_⟩
  · intro d hd
    obtain ⟨hd2, hok⟩ := hdate d hd
    subst hd2
    rw [Date.toDate_decoded r hr hok]
    have : ((some (⟨((1980 + (r >>> 9) : Nat) : Int), (r >>> 5) &&& 15, r &&& 31⟩ :
        TimeDate)).bind fun cd => (Date.from_date cd).toOption) =
        (Date.from_date ⟨((1980 + (r >>> 9) : Nat) : Int),
          (r >>> 5) &&& 15, r &&& 31⟩).toOption := rfl
    rw [this, Date.from_date_decoded r hr]
    rfl
  · intro t ht
    obtain ⟨ht2, hok⟩ := htime r t ht
    subst ht2
    rw [Time.toTime_decoded r hok]
    show some (Time.from_time ⟨r >>> 11, (r >>> 5) &&& 63, (r &&& 31) * 2⟩).to_raw =
      some r
    rw [Time.from_time_decoded r hok]
    rfl
  · intro rt hrt d t hd ht
    obtain ⟨hd2, hdok⟩ := hdate d hd
    obtain ⟨ht2, htok⟩ := htime rt t ht
    subst hd2
    subst ht2
    refine ⟨_, _, Date.toDate_decoded r hr hdok, Time.toTime_decoded rt htok, ?_⟩
    have hfd : DateTime.from_date_time
        ⟨((1980 + (r >>> 9) : Nat) : Int), (r >>> 5) &&& 15, r &&& 31⟩
        ⟨rt >>> 11, (rt >>> 5) &&& 63, (rt &&& 31) * 2⟩ =
        .ok (DateTime.new (Date.new_unchecked r) (Time.new_unchecked rt)) := by
      unfold DateTime.from_date_time
      rw [Date.from_date_decoded r hr, Time.from_time_decoded rt htok]
    rw [hfd]
    rfl

/-- Witness for C1 at the raw pair (33, 0) (`Date::MIN`, `Time::MIN`). -/
theorem valid_raw_roundtrip_witness :
    (∀ d : Date, Date.new 33 = some d →
      ((d.toDate).bind fun cd => (Date.from_date cd).toOption).map Date.to_raw =
        some 33) ∧
    (∀ t : Time, Time.new 33 = some t →
      (t.toTime).map (fun ct => (Time.from_time ct).to_raw) = some 33) ∧
    (∀ rt : Nat, rt < 65536 → ∀ d : Date, ∀ t : Time,
      Date.new 33 = some d → Time.new rt = some t →
      ∃ cd ct, d.toDate = some cd ∧ t.toTime = some ct ∧
        (DateTime.from_date_time cd ct).toOption.map
          (fun dt => (dt.date.to_raw, dt.time.to_raw)) = some (33, rt)) :=
  valid_raw_roundtrip 33 (by norm_num)

/-- C5: the legacy direct-packing design and the composed design are
equivalent: the legacy `DateTime::new` succeeds on a raw pair exactly
when both `Date::new` and `Time::new` succeed, storing both raw values
unchanged; and on calendar inputs the legacy and the composed
`from_date_time` either fail with the same error kind or both succeed
with identical raw date and time fields. -/
theorem legacy_composed_equivalence :
    (∀ d t : Nat, d < 65536 → t < 65536 →
      (((date_time.DateTime.new d t).isSome = true ↔
          (Date.new d).isSome = true ∧ (Time.new t).isSome = true) ∧
        ∀ dt, date_time.DateTime.new d t = some dt →
          dt.date_raw = d ∧ dt.time_raw = t)) ∧
    (∀ cd ct,
      (∀ k, date_time.DateTime.from_date_time cd ct = .error k ↔
        DateTime.from_date_time cd ct = .error k) ∧
      (∀ x, date_time.DateTime.from_date_time cd ct = .ok x →
        DateTime.from_date_time cd ct =
          .ok (DateTime.new (Date.new_unchecked x.date_raw)
            (Time.new_unchecked x.time_raw)))) := by
  constructor
  · intro d t hd ht
    rw [legacy_new_spec d t hd ht, date_new_spec d hd, time_new_spec t]
    by_cases hD : dateFieldsOk d <;> by_cases hT : timeFieldsOk t
    · rw [if_pos ⟨hD, hT⟩, if_pos hD, if_pos hT]
      refine ⟨⟨fun _ => ⟨rfl, rfl⟩, fun _ => rfl⟩, fun dt hdt => ?_⟩
      injection hdt with h2
      rw [← h2]
      exact ⟨rfl, rfl⟩
    · rw [if_neg (fun hc => hT hc.2), if_pos hD, if_neg hT]
      refine ⟨⟨fun h => ?_, fun h => ?_⟩, fun dt hdt => ?_⟩
      · exact nomatch h
      · exact nomatch h.2
      · exact nomatch hdt
    · rw [if_neg (fun hc => hD hc.1), if_neg hD, if_pos hT]
      refine ⟨⟨fun h => ?_, fun h => ?_⟩, fun dt hdt => ?_⟩
      · exact nomatch h
      · exact nomatch h.1
      · exact nomatch hdt
    · rw [if_neg (fun hc => hD hc.1), if_neg hD, if_neg hT]
      refine ⟨⟨fun h => ?_, fun h => ?_⟩, fun dt hdt => ?_⟩
      · exact nomatch h
      · exact nomatch h.1
      · exact nomatch hdt
  · intro cd ct
    have heq := legacy_from_date_time_eq cd ct
    cases hc : DateTime.from_date_time cd ct with
    | error e =>
      rw [hc] at heq
      have heq2 : date_time.DateTime.from_date_time cd ct = .error e := heq
      constructor
      · intro k
        rw [heq2]
        refine ⟨fun h => ?_, fun h => ?_⟩
        · injection h with h3
          rw [h3]
        · injection h with h3
          rw [h3]
      · intro x hx
        rw [heq2] at hx
        exact nomatch hx
    | ok dtc =>
      rw [hc] at heq
      have heq2 : date_time.DateTime.from_date_time cd ct =
          .ok ⟨dtc.date.to_raw, dtc.time.to_raw⟩ := heq
      constructor
      · intro k
        rw [heq2]
        refine ⟨fun h => ?_, fun h => ?_⟩
        · exact nomatch h
        · exact nomatch h
      · intro x hx
        rw [heq2] at hx
        injection hx with h2
        rw [← h2]
        rfl

/-- Witness for C5 at the raw pair (33, 0) and at the calendar pair
(1980-01-01, 00:00:00). -/
theorem legacy_composed_equivalence_witness :
    (((date_time.DateTime.new 33 0).isSome = true ↔
        (Date.new 33).isSome = true ∧ (Time.new 0).isSome = true) ∧
      ∀ dt, date_time.DateTime.new 33 0 = some dt →
        dt.date_raw = 33 ∧ dt.time_raw = 0) ∧
    (∀ k, date_time.DateTime.from_date_time ⟨1980, 1, 1⟩ ⟨0, 0, 0⟩ = .error k ↔
      DateTime.from_date_time ⟨1980, 1, 1⟩ ⟨0, 0, 0⟩ = .error k) :=
  ⟨legacy_composed_equivalence.1 33 0 (by norm_num) (by norm_num),
    (legacy_composed_equivalence.2 ⟨1980, 1, 1⟩ ⟨0, 0, 0⟩).1⟩

/-- C6: for values accepted by the validating constructors, the derived
order (raw-integer comparison on each 16-bit half, date before time for
the composed pair) coincides with the lexicographic calendar-field
order: `(year, month, day)` for dates, `(hour, minute, second)` for
times, and the six fields with the date dominating for the composed
date-time; and the month and day accessors return exactly the compared
fields. -/
theorem calendar_lexicographic_order (rd1 rt1 rd2 rt2 : Nat)
    (h1 : rd1 < 65536) (h2 : rt1 < 65536) (h3 : rd2 < 65536) (h4 : rt2 < 65536)
    (d1 d2 : Date) (t1 t2 : Time)
    (hd1 : Date.new rd1 = some d1) (hd2 : Date.new rd2 = some d2)
    (ht1 : Time.new rt1 = some t1) (ht2 : Time.new rt2 = some t2) :
    (d1.monthOpt = some d1.month_field ∧ d1.dayOpt = some d1.day_field) ∧
    (d1.to_raw < d2.to_raw ↔
      (d1.year < d2.year ∨ (d1.year = d2.year ∧
        (d1.month_field < d2.month_field ∨
          (d1.month_field = d2.month_field ∧ d1.day_field < d2.day_field))))) ∧
    (t1.to_raw < t2.to_raw ↔
      (t1.hour < t2.hour ∨ (t1.hour = t2.hour ∧
        (t1.minute < t2.minute ∨
          (t1.minute = t2.minute ∧ t1.second < t2.second))))) ∧
    (DateTime.lt (DateTime.new d1 t1) (DateTime.new d2 t2) ↔
      (d1.year < d2.year ∨ (d1.year = d2.year ∧
        (d1.month_field < d2.month_field ∨ (d1.month_field = d2.month_field ∧
          (d1.day_field < d2.day_field ∨ (d1.day_field = d2.day_field ∧
            (t1.hour < t2.hour ∨ (t1.hour = t2.hour ∧
              (t1.minute < t2.minute ∨
                (t1.minute = t2.minute ∧ t1.second < t2.second))))))))))) := by
  obtain ⟨e1, k1⟩ := date_new_some_elim rd1 h1 d1 hd1
  obtain ⟨e2, k2⟩ := date_new_some_elim rd2 h3 d2 hd2
  obtain ⟨f1, l1⟩ := time_new_some_elim rt1 t1 ht1
  obtain ⟨f2, l2⟩ := time_new_some_elim rt2 t2 ht2
  subst e1
  subst e2
  subst f1
  subst f2
  have hda := date_decomp rd1
  have hdb := date_decomp rd2
  have hta := time_decomp rt1
  have htb := time_decomp rt2
  have b1 := mask15_lt (rd1 >>> 5)
  have b2 := mask15_lt (rd2 >>> 5)
  have b3 := mask31_lt rd1
  have b4 := mask31_lt rd2
  have b5 := mask63_lt (rt1 >>> 5)
  have b6 := mask63_lt (rt2 >>> 5)
  have b7 := mask31_lt rt1
  have b8 := mask31_lt rt2
  refine ⟨⟨?_, ?_⟩, ?_, ?_, ?_⟩
  · show (Date.new_unchecked rd1).monthOpt = some ((rd1 >>> 5) &&& 15)
    exact Date.monthOpt_decoded rd1 ⟨k1.1, k1.2.1⟩
  · show (Date.new_unchecked rd1).dayOpt = some (rd1 &&& 31)
    exact Date.dayOpt_decoded rd1
  · simp only [Date.to_raw, Date.year, Date.month_field, Date.day_field,
      Date.new_unchecked]
    omega
  · simp only [Time.to_raw, Time.hour, Time.minute, Time.second,
      Time.new_unchecked]
    omega
  · simp only [DateTime.lt, DateTime.new, Date.to_raw, Date.year,
      Date.month_field, Date.day_field, Date.new_unchecked, Time.to_raw,
      Time.hour, Time.minute, Time.second, Time.new_unchecked, Date.mk.injEq]
    omega

/-- Witness for C6 at the raw values of `MIN` and `MAX`. -/
theorem calendar_lexicographic_order_witness :
    Date.MIN.to_raw < Date.MAX.to_raw ↔
      (Date.MIN.year < Date.MAX.year ∨ (Date.MIN.year = Date.MAX.year ∧
        (Date.MIN.month_field < Date.MAX.month_field ∨
          (Date.MIN.month_field = Date.MAX.month_field ∧
            Date.MIN.day_field < Date.MAX.day_field)))) :=
  (calendar_lexicographic_order 33 0 65439 49021 (by norm_num) (by norm_num)
    (by norm_num) (by norm_num) Date.MIN Date.MAX Time.MIN Time.MAX
    (by decide) (by decide) (by decide) (by decide)).2.1

end Dos
